import Mathlib

/-!
# Verification of the pre-processing pipeline (`run/run_pre_processing.py`)

This file gives a shallow embedding of the `pre_process` function of
`run/run_pre_processing.py` and proves properties of it.

Modelling conventions:
* Machine floats become rationals (`ℚ`); timestamps become integers
  (epoch seconds, the hourly step is 3600 seconds).
* Python dictionaries keyed by timestamps / links / coordinates become
  functions into `Option`; dictionaries that are iterated over
  (`background_pollution[t].items()`, `mesh.items()`) become association
  lists, preserving iteration order.
* Quantities that the script obtains from modules outside this file
  (`pollutant.Pollutant`, `um.get_empirical_background_pollution`,
  `udd.is_point_in_area`) are parameters of the embedding, so every theorem
  below holds for all values of these parameters.
* The normalization statistics are a parameter record `NormStats`: the script
  computes each `std` as the square root of `varianceOf` (defined below),
  which is irrational in general.  The claims below only need the exact
  two-point time statistic (`timeMean` / `timeStd`, which is rational),
  the zero case (`sqrt 0 = 0`), or the (non)zeroness of a statistic, so the
  parametric treatment is exact wherever a value matters.
-/

namespace PreProc

/-- A pollutant name.  The enumeration `pollutant.Pollutant` lives outside the
script; a run iterates over a fixed list of pollutant names in order. -/
abbrev Pollutant := String

/-- A traffic link: a pair of endpoint identifiers. -/
abbrev Link := ℕ × ℕ

/-- A geographic point `(lat, lon)`; used for receptors and link endpoints. -/
abbrev Coord := ℚ × ℚ

/-- `tuple(sorted(link))`: the canonical (sorted-endpoint) link key used for
traffic-volume lookups (`links.append(tuple(sorted(link)))`). -/
def canonicalLink (l : Link) : Link := if l.1 ≤ l.2 then l else (l.2, l.1)

/-- One sub-domain of the mesh: the dictionary `{'coord': ..., 'links': ...}`.
The type of the area description is abstract; the script only passes it to
`udd.is_point_in_area`. -/
structure SubDomain (A : Type) where
  coord : A
  links : List Link

/-- The record appended to `collection_of_pre_processed_entries`:
`data = {'mesh_size': len(mesh), 'sub_domain': ..., 'input': ..., 'labels': ...}`. -/
structure Record where
  mesh_size : ℕ
  sub_domain : ℕ
  input : List ℚ
  labels : List ℚ
deriving DecidableEq, Inhabited

/-- The four `(mean, std)` statistic pairs computed at the top of
`pre_process`: time (scalar), weather (4-vector), traffic volume (scalar),
coordinates (2-vector). -/
structure NormStats where
  timeMean : ℚ
  timeStd : ℚ
  weatherMean : ℚ × ℚ × ℚ × ℚ
  weatherStd : ℚ × ℚ × ℚ × ℚ
  volumesMean : ℚ
  volumesStd : ℚ
  coordMean : ℚ × ℚ
  coordStd : ℚ × ℚ
deriving DecidableEq, Inhabited

/-- `normalize(val, mean, std) = (val - mean) / std`. -/
def normalize (val mean std : ℚ) : ℚ := (val - mean) / std

/-- `np.mean` on a list of rationals. -/
def meanOf (l : List ℚ) : ℚ := l.sum / l.length

/-- The square of `np.std` on a list of rationals (the population variance:
mean of the squared deviations).  `np.std` itself is its square root. -/
def varianceOf (l : List ℚ) : ℚ :=
  (l.map (fun x => (x - meanOf l) ^ 2)).sum / l.length

/-- `time_mean = np.mean(time_interval)` with
`time_interval = [date_start.timestamp(), date_end.timestamp()]`. -/
def timeMean (s e : ℤ) : ℚ := meanOf [(s : ℚ), (e : ℚ)]

/-- `time_std = np.std(time_interval)`: on the two-element list `[s, e]` the
standard deviation is exactly `|e - s| / 2`, which is rational (it is
nonnegative and its square is `varianceOf [s, e]`). -/
def timeStd (s e : ℤ) : ℚ := |(e : ℚ) - (s : ℚ)| / 2

/-- `normalize_time(t)` for a given statistics record. -/
def normalizeTime (S : NormStats) (t : ℚ) : ℚ := normalize t S.timeMean S.timeStd

/-- `normalize_weather`: element-wise normalization of the 4-vector
`[wind_dir, wind_speed, wind_dir_std, temp]`. -/
def normalizeWeather (S : NormStats) (w : ℚ × ℚ × ℚ × ℚ) : List ℚ :=
  [normalize w.1 S.weatherMean.1 S.weatherStd.1,
   normalize w.2.1 S.weatherMean.2.1 S.weatherStd.2.1,
   normalize w.2.2.1 S.weatherMean.2.2.1 S.weatherStd.2.2.1,
   normalize w.2.2.2 S.weatherMean.2.2.2 S.weatherStd.2.2.2]

/-- `normalize_traffic(volume)`. -/
def normalizeTraffic (S : NormStats) (v : ℚ) : ℚ :=
  normalize v S.volumesMean S.volumesStd

/-- `normalize_coords([lat, lon])`: element-wise normalization, returned as the
two-element list that the script concatenates into the feature vector. -/
def normalizeCoords (S : NormStats) (c : Coord) : List ℚ :=
  [normalize c.1 S.coordMean.1 S.coordStd.1,
   normalize c.2 S.coordMean.2 S.coordStd.2]

/-- The lexicographic order used by `.sort(key=lambda x: (x[0], x[1]))`. -/
def coordLe (a b : Coord) : Prop := a.1 < b.1 ∨ (a.1 = b.1 ∧ a.2 ≤ b.2)

instance : DecidableRel coordLe := fun a b => by
  unfold coordLe; infer_instance

/-- The receptors of one sub-domain: all receptors of `receptor_list` inside
the sub-domain area, sorted lexicographically by `(lat, lon)`
(`receptor_coords[sub_domain_id].sort(key=lambda x: (x[0], x[1]))`).
The point-in-polygon test `udd.is_point_in_area` is a parameter. -/
def receptorCoords (isPointInArea : Coord → A → Bool) (receptorList : List Coord)
    (area : A) : List Coord :=
  List.insertionSort coordLe (receptorList.filter (fun r => isPointInArea r area))

/-- The raw label of one receptor/pollutant pair:
`caline_estimates[t][coord][poll] - current_background_pollution[poll]` when
both the coordinate and the pollutant are present in the caline estimate at
the current timestamp, else `0`. -/
def rawLabel (calAtT : Coord → Option (Pollutant → Option ℚ))
    (bg : Pollutant → ℚ) (c : Coord) (p : Pollutant) : ℚ :=
  match calAtT c with
  | some polls =>
    match polls p with
    | some est => est - bg p
    | none => 0
  | none => 0

/-- `value = 0 if value < -1 else value`. -/
def clampLabel (v : ℚ) : ℚ := if v < -1 then 0 else v

/-- The volume slot of one link: the normalized volume when the canonical link
key is present in `traffic_volumes[t]`, else the literal `0`. -/
def volumeSlot (S : NormStats) (tv : Link → Option ℚ) (link : Link) : ℚ :=
  match tv (canonicalLink link) with
  | some vol => normalizeTraffic S vol
  | none => 0

/-- The five scalars contributed by one link: normalized start coordinate,
normalized end coordinate, volume slot.  The geometry lookup
`utilities['links_in_area'][tuple(link)]` uses the original (possibly
unsorted) key and is modelled as a total function (the script raises on a
missing geometry key; no claim concerns that case). -/
def linkScalars (S : NormStats) (linksInArea : Link → Coord × Coord)
    (tv : Link → Option ℚ) (link : Link) : List ℚ :=
  normalizeCoords S (linksInArea link).1 ++
    normalizeCoords S (linksInArea link).2 ++ [volumeSlot S tv link]

/-- `current_traffic_volume`: the per-link scalars in link order, padded with
`[0] * ((20 - len(links)) * 5)`.  Natural subtraction matches Python, where
`[0] * n` is empty for negative `n`. -/
def linkBlock (S : NormStats) (linksInArea : Link → Coord × Coord)
    (tv : Link → Option ℚ) (links : List Link) : List ℚ :=
  (links.map (linkScalars S linksInArea tv)).flatten ++
    List.replicate ((20 - links.length) * 5) 0

/-- `current_receptors`: the normalized coordinates of the sub-domain's
receptors, in sorted receptor order. -/
def receptorBlock (S : NormStats) (receptors : List Coord) : List ℚ :=
  (receptors.map (normalizeCoords S)).flatten

/-- `current_estimates`: for each receptor in order, for each pollutant of the
enumeration in order, the clamped raw label. -/
def labelsBlock (pollutants : List Pollutant)
    (calAtT : Coord → Option (Pollutant → Option ℚ)) (bg : Pollutant → ℚ)
    (receptors : List Coord) : List ℚ :=
  (receptors.map (fun c =>
    pollutants.map (fun p => clampLabel (rawLabel calAtT bg c p)))).flatten

/-- Assembly of one `ProcessedRecord` for a `(timestamp, sub-domain)` pair:
`input = timestamp + weather + current_traffic_volume + current_receptors`,
`labels = current_estimates`. -/
def assembleRecord (S : NormStats) (pollutants : List Pollutant)
    (linksInArea : Link → Coord × Coord) (meshSize : ℕ) (t : ℤ)
    (w : ℚ × ℚ × ℚ × ℚ) (tv : Link → Option ℚ)
    (calAtT : Coord → Option (Pollutant → Option ℚ)) (bg : Pollutant → ℚ)
    (sdId : ℕ) (sd : SubDomain A) (receptors : List Coord) : Record where
  mesh_size := meshSize
  sub_domain := sdId
  input := [normalizeTime S (t : ℚ)] ++ normalizeWeather S w ++
    linkBlock S linksInArea tv sd.links ++ receptorBlock S receptors
  labels := labelsBlock pollutants calAtT bg receptors

/-- All arguments of `pre_process` (plus the external parameters described in
the module docstring). -/
structure PreArgs (A : Type) where
  dateStart : ℤ
  dateEnd : ℤ
  mesh : List (ℕ × SubDomain A)
  weatherData : ℤ → Option (ℚ × ℚ × ℚ × ℚ)
  backgroundPollution : ℤ → Option (List (Pollutant × ℚ))
  trafficVolumes : ℤ → Option (Link → Option ℚ)
  linksInArea : Link → Coord × Coord
  calineEstimates : ℤ → Option (Coord → Option (Pollutant → Option ℚ))
  receptorList : List Coord
  isPointInArea : Coord → A → Bool
  pollutants : List Pollutant
  empiricalBackground : Pollutant → ℚ
  stats : NormStats

/-- `for pol, value in background_pollution[t].items():
current_background_pollution[pol] = value`. -/
def applyBackgroundUpdate (bg : Pollutant → ℚ) (upd : List (Pollutant × ℚ)) :
    Pollutant → ℚ :=
  upd.foldl (fun m pv => Function.update m pv.1 pv.2) bg

/-- The last value bound to pollutant `p` by an update, if any; used to state
what `applyBackgroundUpdate` does per pollutant. -/
def lastValue (upd : List (Pollutant × ℚ)) (p : Pollutant) : Option ℚ :=
  upd.foldl (fun acc pv => if pv.1 = p then some pv.2 else acc) none

/-- One iteration of the `while date_current <= date_end` loop body: returns
the records emitted at this timestamp (in mesh iteration order) and the
background-pollution state after the timestamp.  The order of effects follows
the script: weather check, traffic check, background update, then the
per-sub-domain loop with its per-timestamp caline presence check. -/
def processTimestamp (args : PreArgs A) (t : ℤ) (bg : Pollutant → ℚ) :
    List Record × (Pollutant → ℚ) :=
  match args.weatherData t with
  | none => ([], bg)
  | some w =>
    match args.trafficVolumes t with
    | none => ([], bg)
    | some tv =>
      let bg1 := match args.backgroundPollution t with
        | some upd => applyBackgroundUpdate bg upd
        | none => bg
      (args.mesh.filterMap (fun sdp =>
        match args.calineEstimates t with
        | none => none
        | some cal => some (assembleRecord args.stats args.pollutants
            args.linksInArea args.mesh.length t w tv cal bg1 sdp.1 sdp.2
            (receptorCoords args.isPointInArea args.receptorList sdp.2.coord))),
       bg1)

/-- The hourly timeline `date_start, date_start + 1h, ...` of all timestamps
visited by the `while` loop (all `dateStart + 3600 * i ≤ dateEnd`). -/
def hourlyTimeline (dateStart dateEnd : ℤ) : List ℤ :=
  (List.range (if dateStart ≤ dateEnd then
      ((dateEnd - dateStart) / 3600).toNat + 1 else 0)).map
    (fun i => dateStart + 3600 * i)

/-- The main loop over a list of timestamps, threading the running
background-pollution state; returns the emitted records in assembly order and
the final state. -/
def loopGo (args : PreArgs A) : List ℤ → (Pollutant → ℚ) →
    List Record × (Pollutant → ℚ)
  | [], bg => ([], bg)
  | t :: ts, bg =>
    let step := processTimestamp args t bg
    let rest := loopGo args ts step.2
    (step.1 ++ rest.1, rest.2)

/-- All records assembled by one run of `pre_process`, in assembly order
(increasing timestamp, mesh order within a timestamp).  The running
background state starts from `um.get_empirical_background_pollution()`. -/
def preProcessLoop (args : PreArgs A) : List Record :=
  (loopGo args (hourlyTimeline args.dateStart args.dateEnd)
    args.empiricalBackground).1

/-- `max_collection_size = 100000`. -/
def maxCollectionSize : ℕ := 100000

/-- Buffer management after appending one record: if the buffer is still below
the threshold, continue; otherwise `insert_many` the buffer (append it to the
list of performed bulk inserts) and clear the buffer. -/
def writerStep (T : ℕ) (st : List α × List (List α)) (r : α) :
    List α × List (List α) :=
  let buf := st.1 ++ [r]
  if buf.length < T then (buf, st.2) else ([], st.2 ++ [buf])

/-- The final `if collection_of_pre_processed_entries: insert_many(...)`. -/
def flushRemainder (st : List α × List (List α)) : List (List α) :=
  match st.1 with
  | [] => st.2
  | _ => st.2 ++ [st.1]

/-- The batched-writer discipline applied to a record sequence: the list of
`insert_many` batches it produces. -/
def batchWriter (T : ℕ) (records : List α) : List (List α) :=
  flushRemainder (records.foldl (writerStep T) ([], []))

/-- The main loop with the inline buffer management of the script: each
assembled record is appended to the buffer and the threshold is checked after
each append, exactly as in the per-sub-domain loop body. -/
def loopGoBuf (args : PreArgs A) : List ℤ → (Pollutant → ℚ) →
    List Record × List (List Record) → List Record × List (List Record)
  | [], _, st => st
  | t :: ts, bg, st =>
    let step := processTimestamp args t bg
    loopGoBuf args ts step.2 (step.1.foldl (writerStep maxCollectionSize) st)

/-- `pre_process`: the sequence of `insert_many` calls (each a batch of
records) performed by one run, including the final flush of a non-empty
remainder. -/
def pre_process (args : PreArgs A) : List (List Record) :=
  flushRemainder (loopGoBuf args (hourlyTimeline args.dateStart args.dateEnd)
    args.empiricalBackground ([], []))

/-! ### Concrete instantiations used to evaluate the pipeline -/

/-- A statistics record with zero means and unit standard deviations. -/
def statsOne : NormStats := ⟨0, 1, (0,0,0,0), (1,1,1,1), 0, 1, (0,0), (1,1)⟩

/-- A statistics record whose traffic-volume mean is `3` (nonzero) with unit
standard deviations. -/
def statsThree : NormStats := ⟨0, 1, (0,0,0,0), (1,1,1,1), 3, 1, (0,0), (1,1)⟩

/-- A one-hour run over a two-sub-domain mesh: sub-domain 1 contains one
receptor, sub-domain 2 contains two receptors, neither has links.  Weather,
traffic and caline data are present at the single timestamp `0`. -/
def cargsA : PreArgs (List Coord) where
  dateStart := 0
  dateEnd := 0
  mesh := [(1, ⟨[((0:ℚ),(0:ℚ))], []⟩), (2, ⟨[((0:ℚ),(0:ℚ)), (1,1)], []⟩)]
  weatherData := fun t => if t = 0 then some (1, 2, 3, 4) else none
  backgroundPollution := fun _ => none
  trafficVolumes := fun t => if t = 0 then some (fun _ => none) else none
  linksInArea := fun _ => ((0, 0), (0, 0))
  calineEstimates := fun t => if t = 0 then some (fun _ => none) else none
  receptorList := [((0:ℚ), (0:ℚ)), (1, 1)]
  isPointInArea := fun r a => decide (r ∈ a)
  pollutants := ["NO2"]
  empiricalBackground := fun _ => 0
  stats := statsOne

/-- A degenerate one-hour run: the bounding box `[(3,4), (3,4)]` is a single
point, so both coordinate standard deviations are `0` (the square root of the
zero variance), and since `date_start = date_end` the time standard deviation
is `0` as well.  The run still assembles a record. -/
def cargsB : PreArgs (List Coord) where
  dateStart := 0
  dateEnd := 0
  mesh := [(6, ⟨[((3:ℚ),(4:ℚ))], []⟩)]
  weatherData := fun t => if t = 0 then some (1, 2, 3, 4) else none
  backgroundPollution := fun _ => none
  trafficVolumes := fun t => if t = 0 then some (fun _ => none) else none
  linksInArea := fun _ => ((3, 4), (3, 4))
  calineEstimates := fun t => if t = 0 then some (fun _ => none) else none
  receptorList := []
  isPointInArea := fun r a => decide (r ∈ a)
  pollutants := ["NO2"]
  empiricalBackground := fun _ => 0
  stats := ⟨timeMean 0 0, timeStd 0 0, (0,0,0,0), (1,1,1,1), 0, 1, (3,4), (0,0)⟩

/-- A run whose single timestamp `0` has a background-pollution update
`{NO2: 5}` but no weather entry; the empirical background starts every
pollutant at `7`. -/
def cargsD : PreArgs (List Coord) where
  dateStart := 0
  dateEnd := 0
  mesh := [(1, ⟨[], []⟩)]
  weatherData := fun _ => none
  backgroundPollution := fun t => if t = 0 then some [("NO2", 5)] else none
  trafficVolumes := fun _ => none
  linksInArea := fun _ => ((0, 0), (0, 0))
  calineEstimates := fun _ => none
  receptorList := []
  isPointInArea := fun r a => decide (r ∈ a)
  pollutants := ["NO2"]
  empiricalBackground := fun _ => 7
  stats := statsOne

/-- A run whose timestamp `0` has weather, traffic and a background update
`{NO2: 5}`; every other timestamp has no data at all. -/
def cargsE : PreArgs (List Coord) where
  dateStart := 0
  dateEnd := 0
  mesh := []
  weatherData := fun t => if t = 0 then some (1, 2, 3, 4) else none
  backgroundPollution := fun t => if t = 0 then some [("NO2", 5)] else none
  trafficVolumes := fun t => if t = 0 then some (fun _ => none) else none
  linksInArea := fun _ => ((0, 0), (0, 0))
  calineEstimates := fun _ => none
  receptorList := []
  isPointInArea := fun r a => decide (r ∈ a)
  pollutants := ["NO2"]
  empiricalBackground := fun _ => 7
  stats := statsOne

/-! ### Helper lemmas -/

set_option maxRecDepth 10000

theorem length_linkScalars (S : NormStats) (g : Link → Coord × Coord)
    (tv : Link → Option ℚ) (link : Link) :
    (linkScalars S g tv link).length = 5 := rfl

theorem length_flatten_of_const {α β : Type} (f : α → List β) (n : ℕ)
    (hf : ∀ x, (f x).length = n) (xs : List α) :
    ((xs.map f).flatten).length = xs.length * n := by
  induction xs with
  | nil => simp
  | cons x xs ih =>
    simp only [List.map_cons, List.flatten_cons, List.length_append, ih, hf,
      List.length_cons]
    ring

theorem length_linkBlock (S : NormStats) (g : Link → Coord × Coord)
    (tv : Link → Option ℚ) (links : List Link) :
    (linkBlock S g tv links).length = 5 * max links.length 20 := by
  simp only [linkBlock, List.length_append, List.length_replicate,
    length_flatten_of_const _ 5 (length_linkScalars S g tv)]
  omega

theorem length_receptorBlock (S : NormStats) (receptors : List Coord) :
    (receptorBlock S receptors).length = 2 * receptors.length := by
  simp only [receptorBlock,
    length_flatten_of_const (normalizeCoords S) 2 (fun _ => rfl)]
  ring

theorem length_labelsBlock (pollutants : List Pollutant)
    (calAtT : Coord → Option (Pollutant → Option ℚ)) (bg : Pollutant → ℚ)
    (receptors : List Coord) :
    (labelsBlock pollutants calAtT bg receptors).length =
      receptors.length * pollutants.length := by
  simp only [labelsBlock,
    length_flatten_of_const _ pollutants.length (fun _ => List.length_map _ _)]

theorem assembleRecord_input_length (S : NormStats)
    (pollutants : List Pollutant) (g : Link → Coord × Coord) (meshSize : ℕ)
    (t : ℤ) (w : ℚ × ℚ × ℚ × ℚ) (tv : Link → Option ℚ)
    (calAtT : Coord → Option (Pollutant → Option ℚ)) (bg : Pollutant → ℚ)
    (sdId : ℕ) (sd : SubDomain A) (receptors : List Coord) :
    (assembleRecord S pollutants g meshSize t w tv calAtT bg sdId sd
      receptors).input.length =
      5 + 5 * max sd.links.length 20 + 2 * receptors.length := by
  simp only [assembleRecord, List.length_append, length_linkBlock,
    length_receptorBlock, List.length_cons, List.length_nil, normalizeWeather]
  try omega

theorem assembleRecord_labels_length (S : NormStats)
    (pollutants : List Pollutant) (g : Link → Coord × Coord) (meshSize : ℕ)
    (t : ℤ) (w : ℚ × ℚ × ℚ × ℚ) (tv : Link → Option ℚ)
    (calAtT : Coord → Option (Pollutant → Option ℚ)) (bg : Pollutant → ℚ)
    (sdId : ℕ) (sd : SubDomain A) (receptors : List Coord) :
    (assembleRecord S pollutants g meshSize t w tv calAtT bg sdId sd
      receptors).labels.length = receptors.length * pollutants.length :=
  length_labelsBlock ..

theorem mem_processTimestamp {args : PreArgs A} {t : ℤ} {bg : Pollutant → ℚ}
    {rec : Record} (h : rec ∈ (processTimestamp args t bg).1) :
    ∃ w tv cal sdp bg1, args.weatherData t = some w ∧
      args.trafficVolumes t = some tv ∧ args.calineEstimates t = some cal ∧
      sdp ∈ args.mesh ∧
      rec = assembleRecord args.stats args.pollutants args.linksInArea
        args.mesh.length t w tv cal bg1 sdp.1 sdp.2
        (receptorCoords args.isPointInArea args.receptorList sdp.2.coord) := by
  unfold processTimestamp at h
  rcases hw : args.weatherData t with _ | w
  · rw [hw] at h; simp at h
  · rw [hw] at h
    rcases htv : args.trafficVolumes t with _ | tv
    · rw [htv] at h; simp at h
    · rw [htv] at h
      simp only [List.mem_filterMap] at h
      obtain ⟨sdp, hsdp, hrec⟩ := h
      rcases hc : args.calineEstimates t with _ | cal
      · rw [hc] at hrec; simp at hrec
      · rw [hc] at hrec
        simp only [Option.some.injEq] at hrec
        exact ⟨w, tv, cal, sdp, _, rfl, rfl, rfl, hsdp, hrec.symm⟩

theorem mem_loopGo {args : PreArgs A} {ts : List ℤ} {bg : Pollutant → ℚ}
    {rec : Record} (h : rec ∈ (loopGo args ts bg).1) :
    ∃ t bg2, t ∈ ts ∧ rec ∈ (processTimestamp args t bg2).1 := by
  induction ts generalizing bg with
  | nil => simp [loopGo] at h
  | cons t ts ih =>
    simp only [loopGo, List.mem_append] at h
    rcases h with h | h
    · exact ⟨t, bg, List.mem_cons_self .., h⟩
    · obtain ⟨u, bg2, hu, hrec⟩ := ih h
      exact ⟨u, bg2, List.mem_cons_of_mem _ hu, hrec⟩

theorem processTimestamp_snd_of_no_update {args : PreArgs A} {t : ℤ}
    (bg : Pollutant → ℚ) (h : args.backgroundPollution t = none) :
    (processTimestamp args t bg).2 = bg := by
  unfold processTimestamp
  rcases hw : args.weatherData t with _ | w
  · rfl
  · rcases htv : args.trafficVolumes t with _ | tv
    · rfl
    · simp [h]

theorem lastValue_foldl (p : Pollutant) (upd : List (Pollutant × ℚ))
    (acc : Option ℚ) :
    upd.foldl (fun a pv => if pv.1 = p then some pv.2 else a) acc =
      match lastValue upd p with
      | some v => some v
      | none => acc := by
  induction upd generalizing acc with
  | nil => simp [lastValue]
  | cons pv rest ih =>
    show rest.foldl _ (if pv.1 = p then some pv.2 else acc) = _
    rw [ih]
    have hcons : lastValue (pv :: rest) p =
        match lastValue rest p with
        | some v => some v
        | none => if pv.1 = p then some pv.2 else none := by
      show rest.foldl _ (if pv.1 = p then some pv.2 else none) = _
      rw [ih]
    rw [hcons]
    rcases lastValue rest p with _ | v
    · by_cases hp : pv.1 = p <;> simp [hp]
    · rfl

theorem applyBackgroundUpdate_apply (bg : Pollutant → ℚ)
    (upd : List (Pollutant × ℚ)) (p : Pollutant) :
    applyBackgroundUpdate bg upd p = (lastValue upd p).getD (bg p) := by
  induction upd generalizing bg with
  | nil => rfl
  | cons pv rest ih =>
    show (applyBackgroundUpdate (Function.update bg pv.1 pv.2) rest) p = _
    rw [ih]
    have hcons : lastValue (pv :: rest) p =
        match lastValue rest p with
        | some v => some v
        | none => if pv.1 = p then some pv.2 else none := by
      show rest.foldl _ (if pv.1 = p then some pv.2 else none) = _
      rw [lastValue_foldl]
    rw [hcons]
    rcases lastValue rest p with _ | v
    · simp only [Function.update_apply]
      by_cases hp : pv.1 = p <;> simp [hp, Ne.symm]
    · rfl

theorem flatten_get_const {β : Type} (n : ℕ) (ls : List (List β))
    (hl : ∀ l ∈ ls, l.length = n) (ri pi : ℕ) (hri : ri < ls.length)
    (hpi : pi < n) :
    ∃ (hidx : ri * n + pi < ls.flatten.length)
      (hin : pi < (ls.get ⟨ri, hri⟩).length),
      ls.flatten.get ⟨ri * n + pi, hidx⟩ = (ls.get ⟨ri, hri⟩).get ⟨pi, hin⟩ := by
  induction ls generalizing ri with
  | nil => exact absurd hri (by simp)
  | cons l ls ih =>
    have hlen : l.length = n := hl l (List.mem_cons_self ..)
    cases ri with
    | zero =>
      have hidx : 0 * n + pi < (l :: ls).flatten.length := by
        simp only [List.flatten_cons, List.length_append, Nat.zero_mul,
          Nat.zero_add]
        omega
      have hin : pi < ((l :: ls).get ⟨0, hri⟩).length := by
        simpa [hlen] using hpi
      refine ⟨hidx, hin, ?_⟩
      simp only [List.flatten_cons, List.get_eq_getElem]
      have hpl : 0 * n + pi < l.length := by omega
      rw [List.getElem_append_left hpl]
      simp only [List.getElem_cons_zero]
      congr 1
      omega
    | succ ri =>
      have hri2 : ri < ls.length := by simpa using hri
      obtain ⟨hidx2, hin2, hget2⟩ :=
        ih (fun x hx => hl x (List.mem_cons_of_mem _ hx)) ri hri2
      have hmul : (ri + 1) * n = n + ri * n := by ring
      have hidx : (ri + 1) * n + pi < ((l :: ls).flatten).length := by
        simp only [List.flatten_cons, List.length_append, hlen]
        omega
      have hin : pi < ((l :: ls).get ⟨ri + 1, hri⟩).length := by
        simpa using hin2
      refine ⟨hidx, hin, ?_⟩
      simp only [List.flatten_cons, List.get_eq_getElem]
      have hge : l.length ≤ (ri + 1) * n + pi := by
        rw [hlen]; nlinarith
      rw [List.getElem_append_right hge]
      have hsub : (ri + 1) * n + pi - l.length = ri * n + pi := by
        rw [hlen]; omega
      simp only [List.getElem_cons_succ, hsub]
      simp only [List.get_eq_getElem] at hget2
      exact hget2

/-- One step of the buffer discipline written as an `if`. -/
theorem writerStep_eq (T : ℕ) (st : List α × List (List α)) (r : α) :
    writerStep T st r = if (st.1 ++ [r]).length < T then (st.1 ++ [r], st.2)
      else ([], st.2 ++ [st.1 ++ [r]]) := rfl

theorem loopGoBuf_eq_foldl (args : PreArgs A) (ts : List ℤ)
    (bg : Pollutant → ℚ) (st : List Record × List (List Record)) :
    loopGoBuf args ts bg st =
      (loopGo args ts bg).1.foldl (writerStep maxCollectionSize) st := by
  induction ts generalizing bg st with
  | nil => rfl
  | cons t ts ih =>
    show loopGoBuf args ts (processTimestamp args t bg).2 _ = _
    rw [ih]
    show _ = ((processTimestamp args t bg).1 ++
      (loopGo args ts (processTimestamp args t bg).2).1).foldl _ st
    rw [List.foldl_append]

theorem foldl_writerStep_flatten (T : ℕ) (l : List α)
    (st : List α × List (List α)) :
    ((l.foldl (writerStep T) st).2).flatten ++ (l.foldl (writerStep T) st).1 =
      st.2.flatten ++ st.1 ++ l := by
  induction l generalizing st with
  | nil => simp
  | cons r l ih =>
    rw [List.foldl_cons, ih, writerStep_eq]
    by_cases hlt : (st.1 ++ [r]).length < T
    · rw [if_pos hlt]
      simp
    · rw [if_neg hlt]
      simp

theorem flushRemainder_flatten (st : List α × List (List α)) :
    (flushRemainder st).flatten = st.2.flatten ++ st.1 := by
  unfold flushRemainder
  split
  · next h => simp [h]
  · simp

theorem batchWriter_flatten (T : ℕ) (l : List α) :
    (batchWriter T l).flatten = l := by
  unfold batchWriter
  rw [flushRemainder_flatten, foldl_writerStep_flatten]
  simp

theorem foldl_writerStep_sizes (T : ℕ) (l : List α) :
    ∀ (st : List α × List (List α)), st.1.length < T →
      (∀ b ∈ st.2, b.length = T) →
      (l.foldl (writerStep T) st).1.length = (st.1.length + l.length) % T ∧
      (l.foldl (writerStep T) st).2.length =
        st.2.length + (st.1.length + l.length) / T ∧
      ∀ b ∈ (l.foldl (writerStep T) st).2, b.length = T := by
  induction l with
  | nil =>
    intro st h1 h2
    exact ⟨by simp [Nat.mod_eq_of_lt h1], by simp [Nat.div_eq_of_lt h1], h2⟩
  | cons r l ih =>
    intro st h1 h2
    rw [List.foldl_cons, writerStep_eq]
    by_cases hlt : (st.1 ++ [r]).length < T
    · rw [if_pos hlt]
      obtain ⟨g1, g2, g3⟩ := ih (st.1 ++ [r], st.2) (by simpa using hlt) h2
      have e : (st.1 ++ [r], st.2).1.length + l.length =
          st.1.length + (r :: l).length := by
        simp only [List.length_append, List.length_cons, List.length_nil]
        omega
      refine ⟨?_, ?_, g3⟩
      · rw [g1, e]
      · rw [g2, e]
    · rw [if_neg hlt]
      have hT : st.1.length + 1 = T := by
        simp only [List.length_append, List.length_cons, List.length_nil,
          not_lt] at hlt ⊢
        omega
      have hTpos : 0 < T := by omega
      obtain ⟨g1, g2, g3⟩ := ih ([], st.2 ++ [st.1 ++ [r]]) (by simpa using hTpos)
        (by
          intro b hb
          rcases List.mem_append.1 hb with hb | hb
          · exact h2 b hb
          · simp only [List.mem_singleton] at hb
            subst hb
            simp only [List.length_append, List.length_cons, List.length_nil]
            omega)
      refine ⟨?_, ?_, g3⟩
      · rw [g1]
        have e : st.1.length + (r :: l).length = T + l.length := by
          simp only [List.length_cons]; omega
        rw [e, Nat.add_mod_left]
        simp
      · rw [g2]
        have e : st.1.length + (r :: l).length = l.length + T := by
          simp only [List.length_cons]; omega
        rw [e, Nat.add_div_right _ hTpos]
        simp only [List.length_append, List.length_cons, List.length_nil,
          Nat.zero_add]
        omega

/-! ### The claims -/

/-- C5: for a sub-domain with `k ≤ 20` links, the link block of the assembled
input vector consists of exactly `20 * 5 = 100` scalars: five scalars per
link (normalized start coordinate, normalized end coordinate, volume slot) in
link order, followed by `(20 - k) * 5` trailing zeros. -/
theorem link_block_padding (S : NormStats) (g : Link → Coord × Coord)
    (tv : Link → Option ℚ) (links : List Link) (hk : links.length ≤ 20) :
    (linkBlock S g tv links).length = 20 * 5 ∧
    (∀ link, (linkScalars S g tv link).length = 5) ∧
    (linkBlock S g tv links).take (5 * links.length) =
      (links.map (linkScalars S g tv)).flatten ∧
    (linkBlock S g tv links).drop (5 * links.length) =
      List.replicate ((20 - links.length) * 5) 0 := by
  have hflat : 5 * links.length =
      ((links.map (linkScalars S g tv)).flatten).length := by
    rw [length_flatten_of_const _ 5 (length_linkScalars S g tv)]; ring
  refine ⟨?_, fun link => rfl, ?_, ?_⟩
  · rw [length_linkBlock]; omega
  · rw [linkBlock, hflat, List.take_left]
  · rw [linkBlock, hflat, List.drop_left]

/-- C5 witness: the link block of a concrete one-link sub-domain. -/
theorem link_block_padding_witness :
    ([((1:ℕ), (2:ℕ))] : List Link).length ≤ 20 ∧
    ((linkBlock statsOne (fun _ => ((0, 0), (0, 0))) (fun _ => none)
        [(1, 2)]).length = 20 * 5 ∧
      (∀ link, (linkScalars statsOne (fun _ => ((0, 0), (0, 0)))
        (fun _ => none) link).length = 5) ∧
      (linkBlock statsOne (fun _ => ((0, 0), (0, 0))) (fun _ => none)
          [(1, 2)]).take (5 * ([((1:ℕ), (2:ℕ))] : List Link).length) =
        (([((1:ℕ), (2:ℕ))] : List Link).map (linkScalars statsOne
          (fun _ => ((0, 0), (0, 0))) (fun _ => none))).flatten ∧
      (linkBlock statsOne (fun _ => ((0, 0), (0, 0))) (fun _ => none)
          [(1, 2)]).drop (5 * ([((1:ℕ), (2:ℕ))] : List Link).length) =
        List.replicate ((20 - ([((1:ℕ), (2:ℕ))] : List Link).length) * 5) 0) :=
  ⟨by decide, link_block_padding statsOne (fun _ => ((0, 0), (0, 0)))
    (fun _ => none) [(1, 2)] (by decide)⟩

/-- C6: a timestamp with no weather entry or no traffic-volume entry is
skipped silently: no record is emitted for any sub-domain and the background
state is left unchanged; the loop just advances. -/
theorem timestamp_skipped_without_weather_or_traffic (args : PreArgs A)
    (t : ℤ) (bg : Pollutant → ℚ)
    (h : args.weatherData t = none ∨ args.trafficVolumes t = none) :
    processTimestamp args t bg = ([], bg) := by
  unfold processTimestamp
  rcases h with h | h
  · rw [h]
  · rcases hw : args.weatherData t with _ | w
    · rfl
    · rw [h]

/-- C6 witness: timestamp `99` of the concrete run has no weather entry and
is skipped. -/
theorem timestamp_skipped_witness :
    (cargsE.weatherData 99 = none ∨ cargsE.trafficVolumes 99 = none) ∧
    processTimestamp cargsE 99 cargsE.empiricalBackground =
      ([], cargsE.empiricalBackground) :=
  ⟨Or.inl rfl, timestamp_skipped_without_weather_or_traffic cargsE 99
    cargsE.empiricalBackground (Or.inl rfl)⟩

/-- C7: if the caline-estimate series has no entry at a timestamp, no record
is emitted for any sub-domain at that timestamp — the presence check depends
only on the timestamp, so absence skips every sub-domain of the mesh. -/
theorem no_records_without_caline (args : PreArgs A) (t : ℤ)
    (bg : Pollutant → ℚ) (h : args.calineEstimates t = none) :
    (processTimestamp args t bg).1 = [] := by
  unfold processTimestamp
  rcases hw : args.weatherData t with _ | w
  · rfl
  · rcases htv : args.trafficVolumes t with _ | tv
    · rfl
    · simp [h]

/-- C7 witness: the concrete run has no caline entry at timestamp `0`, so the
record list of that timestamp is empty. -/
theorem no_records_without_caline_witness :
    cargsE.calineEstimates 0 = none ∧
    (processTimestamp cargsE 0 cargsE.empiricalBackground).1 = [] :=
  ⟨rfl, no_records_without_caline cargsE 0 cargsE.empiricalBackground rfl⟩

/-- C10: when a link's canonical (sorted-endpoint) key is absent from the
traffic-volume mapping, the emitted volume slot is the literal `0`, whereas a
recorded volume of `0` yields the standardized value
`(0 - mean) / std = normalize_traffic(0)`; the two differ whenever the
traffic mean is nonzero (and the std is nonzero, the non-degenerate case). -/
theorem absent_volume_vs_zero_volume (S : NormStats)
    (tv1 tv2 : Link → Option ℚ) (link : Link)
    (h1 : tv1 (canonicalLink link) = none)
    (h2 : tv2 (canonicalLink link) = some 0)
    (hm : S.volumesMean ≠ 0) (hs : S.volumesStd ≠ 0) :
    volumeSlot S tv1 link = 0 ∧
    volumeSlot S tv2 link = (0 - S.volumesMean) / S.volumesStd ∧
    volumeSlot S tv1 link ≠ volumeSlot S tv2 link := by
  have e1 : volumeSlot S tv1 link = 0 := by
    unfold volumeSlot; rw [h1]
  have e2 : volumeSlot S tv2 link = (0 - S.volumesMean) / S.volumesStd := by
    unfold volumeSlot; rw [h2]; rfl
  refine ⟨e1, e2, ?_⟩
  rw [e1, e2]
  have hnz : (0 - S.volumesMean) / S.volumesStd ≠ 0 :=
    div_ne_zero (sub_ne_zero.mpr (Ne.symm hm)) hs
  exact fun hc => hnz hc.symm

/-- C10 witness: a concrete statistics record with traffic mean `3`. -/
theorem absent_volume_vs_zero_volume_witness :
    ((fun _ : Link => (none : Option ℚ)) (canonicalLink (1, 2)) = none) ∧
    ((fun _ : Link => some (0 : ℚ)) (canonicalLink (1, 2)) = some 0) ∧
    statsThree.volumesMean ≠ 0 ∧ statsThree.volumesStd ≠ 0 ∧
    (volumeSlot statsThree (fun _ => none) (1, 2) = 0 ∧
      volumeSlot statsThree (fun _ => some 0) (1, 2) =
        (0 - statsThree.volumesMean) / statsThree.volumesStd ∧
      volumeSlot statsThree (fun _ => none) (1, 2) ≠
        volumeSlot statsThree (fun _ => some 0) (1, 2)) :=
  ⟨rfl, rfl, by norm_num [statsThree], by norm_num [statsThree],
    absent_volume_vs_zero_volume statsThree (fun _ => none) (fun _ => some 0)
      (1, 2) rfl rfl (by norm_num [statsThree]) (by norm_num [statsThree])⟩

/-- C3: the label stored at flat position `ri * |pollutants| + pi` of a
record's label vector is the clamped raw label of receptor `ri` and pollutant
`pi`: the raw value `v` (caline estimate minus current background, or `0`
when the receptor/pollutant is absent) if `v ≥ -1`, and `0` (not `-1`) if
`v < -1`. -/
theorem stored_label_clamped (pollutants : List Pollutant)
    (calAtT : Coord → Option (Pollutant → Option ℚ)) (bg : Pollutant → ℚ)
    (receptors : List Coord) (ri pi : ℕ) (hri : ri < receptors.length)
    (hpi : pi < pollutants.length) :
    ∃ (hidx : ri * pollutants.length + pi <
        (labelsBlock pollutants calAtT bg receptors).length),
      (labelsBlock pollutants calAtT bg receptors).get
          ⟨ri * pollutants.length + pi, hidx⟩ =
        if rawLabel calAtT bg (receptors.get ⟨ri, hri⟩)
            (pollutants.get ⟨pi, hpi⟩) < -1 then 0
        else rawLabel calAtT bg (receptors.get ⟨ri, hri⟩)
            (pollutants.get ⟨pi, hpi⟩) := by
  unfold labelsBlock
  have hlen : ∀ l ∈ receptors.map (fun c => pollutants.map
      (fun p => clampLabel (rawLabel calAtT bg c p))), l.length =
        pollutants.length := by
    intro l hl
    obtain ⟨c, _, rfl⟩ := List.mem_map.1 hl
    exact List.length_map ..
  have hri2 : ri < (receptors.map (fun c => pollutants.map
      (fun p => clampLabel (rawLabel calAtT bg c p)))).length := by
    simpa using hri
  obtain ⟨hidx, hin, hget⟩ :=
    flatten_get_const pollutants.length _ hlen ri pi hri2 hpi
  refine ⟨hidx, ?_⟩
  rw [hget]
  simp only [List.get_eq_getElem, List.getElem_map]
  rfl

/-- C3 witness: a concrete one-receptor, one-pollutant label block. -/
theorem stored_label_clamped_witness :
    0 < ([((0:ℚ), (0:ℚ))] : List Coord).length ∧
    0 < (["NO2"] : List Pollutant).length ∧
    (∃ (hidx : 0 * (["NO2"] : List Pollutant).length + 0 <
        (labelsBlock ["NO2"] (fun _ => none) (fun _ => 0)
          [((0:ℚ), (0:ℚ))]).length),
      (labelsBlock ["NO2"] (fun _ => none) (fun _ => 0)
          [((0:ℚ), (0:ℚ))]).get
          ⟨0 * (["NO2"] : List Pollutant).length + 0, hidx⟩ =
        if rawLabel (fun _ => none) (fun _ => 0)
            (([((0:ℚ), (0:ℚ))] : List Coord).get ⟨0, by decide⟩)
            ((["NO2"] : List Pollutant).get ⟨0, by decide⟩) < -1 then 0
        else rawLabel (fun _ => none) (fun _ => 0)
            (([((0:ℚ), (0:ℚ))] : List Coord).get ⟨0, by decide⟩)
            ((["NO2"] : List Pollutant).get ⟨0, by decide⟩)) :=
  ⟨by decide, by decide,
    stored_label_clamped ["NO2"] (fun _ => none) (fun _ => 0)
      [((0:ℚ), (0:ℚ))] 0 0 (by decide) (by decide)⟩

/-- C4 (amended): the running background mapping is carried forward across
the timeline: at a timestamp that passes the weather/traffic presence checks
and has a background update, exactly the pollutants present in the update are
overwritten (last value wins) and all others retain their carried value; at a
timestamp with no update the mapping is untouched; across any segment of
timestamps without updates the mapping is unchanged (a single running state,
never reset).  (At a timestamp skipped for missing weather/traffic an update
is dropped, not applied — see the counterexample.) -/
theorem background_carry_forward (args : PreArgs A) (t u : ℤ)
    (bg bg2 : Pollutant → ℚ) (w : ℚ × ℚ × ℚ × ℚ) (tv : Link → Option ℚ)
    (upd : List (Pollutant × ℚ)) (ts : List ℤ)
    (hw : args.weatherData t = some w) (htv : args.trafficVolumes t = some tv)
    (hupd : args.backgroundPollution t = some upd)
    (hu : args.backgroundPollution u = none)
    (hts : ∀ x ∈ ts, args.backgroundPollution x = none) :
    (∀ p, (processTimestamp args t bg).2 p = (lastValue upd p).getD (bg p)) ∧
    (processTimestamp args u bg2).2 = bg2 ∧
    (loopGo args ts bg).2 = bg := by
  have hcarry : ∀ (ts2 : List ℤ) (bg3 : Pollutant → ℚ),
      (∀ x ∈ ts2, args.backgroundPollution x = none) →
      (loopGo args ts2 bg3).2 = bg3 := by
    intro ts2
    induction ts2 with
    | nil => intro bg3 _; rfl
    | cons x ts2 ih =>
      intro bg3 hts2
      show (loopGo args ts2 (processTimestamp args x bg3).2).2 = bg3
      rw [processTimestamp_snd_of_no_update bg3 (hts2 x (List.mem_cons_self ..))]
      exact ih _ (fun y hy => hts2 y (List.mem_cons_of_mem _ hy))
  refine ⟨?_, processTimestamp_snd_of_no_update bg2 hu, hcarry ts bg hts⟩
  intro p
  have hstep : (processTimestamp args t bg).2 = applyBackgroundUpdate bg upd := by
    unfold processTimestamp
    rw [hw, htv, hupd]
  rw [hstep, applyBackgroundUpdate_apply]

/-- C4 counterexample: at timestamp `0` the run `cargsD` has a background
update `{NO2: 5}`, but that timestamp has no weather entry, so the update is
dropped: the running mapping still gives the initial `7` for NO2, not the
update value `5` the claim predicts for a timestamp with an update. -/
theorem background_update_dropped_on_skipped_timestamp :
    cargsD.backgroundPollution 0 = some [("NO2", 5)] ∧
    cargsD.weatherData 0 = none ∧
    (processTimestamp cargsD 0 cargsD.empiricalBackground).2 "NO2" = 7 ∧
    (7 : ℚ) ≠ 5 :=
  ⟨rfl, rfl, rfl, by norm_num⟩

/-- C4 witness: the concrete run `cargsE` has weather, traffic and the update
`{NO2: 5}` at timestamp `0`, no update at `99`, and no update on the segment
`[99]`. -/
theorem background_carry_forward_witness :
    cargsE.weatherData 0 = some (1, 2, 3, 4) ∧
    cargsE.trafficVolumes 0 = some (fun _ => none) ∧
    cargsE.backgroundPollution 0 = some [("NO2", 5)] ∧
    cargsE.backgroundPollution 99 = none ∧
    (∀ x ∈ ([99] : List ℤ), cargsE.backgroundPollution x = none) ∧
    ((∀ p, (processTimestamp cargsE 0 cargsE.empiricalBackground).2 p =
        (lastValue [("NO2", 5)] p).getD (cargsE.empiricalBackground p)) ∧
      (processTimestamp cargsE 99 cargsE.empiricalBackground).2 =
        cargsE.empiricalBackground ∧
      (loopGo cargsE [99] cargsE.empiricalBackground).2 =
        cargsE.empiricalBackground) :=
  ⟨rfl, rfl, rfl, rfl,
    by intro x hx; rw [List.mem_singleton] at hx; subst hx; rfl,
    background_carry_forward cargsE 0 99 cargsE.empiricalBackground
      cargsE.empiricalBackground (1, 2, 3, 4) (fun _ => none) [("NO2", 5)]
      [99] rfl rfl rfl rfl
      (by intro x hx; rw [List.mem_singleton] at hx; subst hx; rfl)⟩

/-- C8 (amended): the time statistic is the mean and standard deviation of
exactly the two-element list `[start, end]`: `timeMean` is its `np.mean` and
`timeStd` is nonnegative with square equal to its `np.std` squared (the
variance); whenever `start < end`, `normalize_time(start) = -1` and
`normalize_time(end) = +1`.  (For `start > end` the signs flip — see the
counterexample.) -/
theorem time_statistic_two_point (s e : ℤ) (h : s < e) :
    timeMean s e = meanOf [(s : ℚ), (e : ℚ)] ∧
    timeStd s e ^ 2 = varianceOf [(s : ℚ), (e : ℚ)] ∧
    0 ≤ timeStd s e ∧
    normalize ((s : ℚ)) (timeMean s e) (timeStd s e) = -1 ∧
    normalize ((e : ℚ)) (timeMean s e) (timeStd s e) = 1 := by
  have hse : (0 : ℚ) < (e : ℚ) - (s : ℚ) := by
    rw [sub_pos]
    exact_mod_cast h
  have habs : |(e : ℚ) - (s : ℚ)| = (e : ℚ) - (s : ℚ) := abs_of_pos hse
  have hne : (e : ℚ) - (s : ℚ) ≠ 0 := ne_of_gt hse
  refine ⟨rfl, ?_, ?_, ?_, ?_⟩
  · unfold timeStd varianceOf meanOf
    rw [habs]
    simp only [List.map_cons, List.map_nil, List.sum_cons, List.sum_nil,
      List.length_cons, List.length_nil]
    push_cast
    field_simp
    ring
  · unfold timeStd
    positivity
  · unfold normalize timeMean timeStd meanOf
    rw [habs]
    simp only [List.sum_cons, List.sum_nil, List.length_cons, List.length_nil]
    push_cast
    rw [div_eq_iff (by positivity)]
    ring
  · unfold normalize timeMean timeStd meanOf
    rw [habs]
    simp only [List.sum_cons, List.sum_nil, List.length_cons, List.length_nil]
    push_cast
    rw [div_eq_iff (by positivity)]
    ring

/-- C8 counterexample: with `start = 3600` and `end = 0` (start differs from
end), `normalize_time(start) = +1`, not `-1` as the claim states for every
pair of distinct endpoints. -/
theorem normalize_time_sign_flips :
    (3600 : ℤ) ≠ (0 : ℤ) ∧
    normalize (((3600 : ℤ) : ℚ)) (timeMean 3600 0) (timeStd 3600 0) = 1 ∧
    (1 : ℚ) ≠ -1 := by
  refine ⟨by decide, ?_, by norm_num⟩
  unfold normalize timeMean timeStd meanOf
  simp only [List.sum_cons, List.sum_nil, List.length_cons, List.length_nil]
  rw [show ((0 : ℤ) : ℚ) - ((3600 : ℤ) : ℚ) = -3600 by push_cast; ring,
    abs_neg, abs_of_nonneg (by norm_num : (0 : ℚ) ≤ 3600)]
  push_cast
  norm_num

/-- C8 witness: the two-point statistic at `start = 0 < 3600 = end`. -/
theorem time_statistic_two_point_witness :
    (0 : ℤ) < 3600 ∧
    (timeMean 0 3600 = meanOf [((0 : ℤ) : ℚ), ((3600 : ℤ) : ℚ)] ∧
      timeStd 0 3600 ^ 2 = varianceOf [((0 : ℤ) : ℚ), ((3600 : ℤ) : ℚ)] ∧
      0 ≤ timeStd 0 3600 ∧
      normalize (((0 : ℤ) : ℚ)) (timeMean 0 3600) (timeStd 0 3600) = -1 ∧
      normalize (((3600 : ℤ) : ℚ)) (timeMean 0 3600) (timeStd 0 3600) = 1) :=
  ⟨by decide, time_statistic_two_point 0 3600 (by decide)⟩

/-- C2: there is no zero-std guard in the code: with a single-point bounding
box both coordinate variances are `0` (so `np.std`, its square root, is `0`),
and with `date_start = date_end` the time std is `0` as well; yet the run
still assembles and emits a record instead of failing fast before any record
is produced — in floating point the unguarded division silently produces
non-finite feature values. -/
theorem no_zero_std_guard :
    varianceOf ([((3:ℚ), (4:ℚ)), (3, 4)].map Prod.fst) = 0 ∧
    varianceOf ([((3:ℚ), (4:ℚ)), (3, 4)].map Prod.snd) = 0 ∧
    cargsB.stats.coordStd = (0, 0) ∧
    timeStd cargsB.dateStart cargsB.dateEnd = 0 ∧
    (preProcessLoop cargsB).length = 1 := by
  refine ⟨?_, ?_, rfl, ?_, by decide⟩
  · unfold varianceOf meanOf
    norm_num
  · unfold varianceOf meanOf
    norm_num
  · show timeStd 0 0 = 0
    unfold timeStd
    norm_num

/-- C1 (amended): every record emitted by a run comes from a mesh sub-domain;
its input length is `5 + 5 * max(k, 20) + 2 * r` and its labels length is
`r * |pollutants|`, where `k` is that sub-domain's link count and `r` its
receptor count.  Hence `len(labels)` is always a multiple of the
pollutant-enumeration size, but `len(input)` is run-constant only when all
selected sub-domains have the same receptor count (and at most 20 links) —
the link block is padded, the receptor block is not. -/
theorem record_length_formula (args : PreArgs A) (rec : Record)
    (hrec : rec ∈ preProcessLoop args) :
    ∃ sdp : ℕ × SubDomain A, sdp ∈ args.mesh ∧ rec.sub_domain = sdp.1 ∧
      rec.input.length = 5 + 5 * max sdp.2.links.length 20 +
        2 * (receptorCoords args.isPointInArea args.receptorList
          sdp.2.coord).length ∧
      rec.labels.length = (receptorCoords args.isPointInArea args.receptorList
        sdp.2.coord).length * args.pollutants.length := by
  obtain ⟨t, bg2, _, hmem⟩ := mem_loopGo hrec
  obtain ⟨w, tv, cal, sdp, bg1, _, _, _, hsdp, hrec2⟩ :=
    mem_processTimestamp hmem
  refine ⟨sdp, hsdp, ?_, ?_, ?_⟩
  · rw [hrec2]; rfl
  · rw [hrec2, assembleRecord_input_length]
  · rw [hrec2, assembleRecord_labels_length]

/-- C1 counterexample: in the single run `cargsA` (two sub-domains with one
and two receptors respectively, one timestamp), the two emitted records have
input lengths `107` and `109` — `len(input)` is not a run-constant value. -/
theorem record_length_not_run_constant :
    (preProcessLoop cargsA).map (fun r => r.input.length) = [107, 109] ∧
    ¬ (∀ r1 ∈ preProcessLoop cargsA, ∀ r2 ∈ preProcessLoop cargsA,
        r1.input.length = r2.input.length) :=
  ⟨by decide, by decide⟩

/-- C1 witness: the first record of the concrete run `cargsA`. -/
theorem record_length_formula_witness :
    0 < (preProcessLoop cargsA).length ∧
    (∃ sdp : ℕ × SubDomain (List Coord), sdp ∈ cargsA.mesh ∧
      ((preProcessLoop cargsA).get ⟨0, by decide⟩).sub_domain = sdp.1 ∧
      ((preProcessLoop cargsA).get ⟨0, by decide⟩).input.length =
        5 + 5 * max sdp.2.links.length 20 +
          2 * (receptorCoords cargsA.isPointInArea cargsA.receptorList
            sdp.2.coord).length ∧
      ((preProcessLoop cargsA).get ⟨0, by decide⟩).labels.length =
        (receptorCoords cargsA.isPointInArea cargsA.receptorList
          sdp.2.coord).length * cargsA.pollutants.length) :=
  ⟨by decide, record_length_formula cargsA _ (List.get_mem _ 0 (by decide))⟩

/-- C9: the batched writer: `pre_process`, which appends each assembled
record to a buffer, bulk-inserts and clears the buffer exactly when it
reaches `max_collection_size = 100000`, and unconditionally flushes a
non-empty remainder at the end, performs exactly the batch decomposition of
the assembly-order record sequence — every record is persisted exactly once,
in order; and a run assembling `100001` records yields exactly two
insert-many calls with batch sizes `100000` and `1`. -/
theorem batched_writer_behaviour (args : PreArgs A) (l : List Record)
    (hl : l.length = 100001) :
    pre_process args = batchWriter maxCollectionSize (preProcessLoop args) ∧
    (pre_process args).flatten = preProcessLoop args ∧
    (batchWriter maxCollectionSize l).map List.length = [100000, 1] := by
  have h1 : pre_process args =
      batchWriter maxCollectionSize (preProcessLoop args) := by
    unfold pre_process batchWriter preProcessLoop
    rw [loopGoBuf_eq_foldl]
  refine ⟨h1, by rw [h1, batchWriter_flatten], ?_⟩
  obtain ⟨g1, g2, g3⟩ := foldl_writerStep_sizes maxCollectionSize l ([], [])
    (by show 0 < 100000; norm_num) (by intro b hb; simp at hb)
  have g1a : (l.foldl (writerStep maxCollectionSize) ([], [])).1.length = 1 := by
    rw [g1, hl]; rfl
  have g2a : (l.foldl (writerStep maxCollectionSize) ([], [])).2.length = 1 := by
    rw [g2, hl]; rfl
  unfold batchWriter flushRemainder
  split
  · next heq =>
    rw [heq] at g1a
    simp at g1a
  · rw [List.map_append]
    have hsnd : (l.foldl (writerStep maxCollectionSize) ([], [])).2.map
        List.length = [100000] := by
      rw [show [100000] = List.replicate 1 100000 from rfl,
        List.eq_replicate_iff]
      exact ⟨by rw [List.length_map]; exact g2a,
        by
          intro b hb
          obtain ⟨a, ha, rfl⟩ := List.mem_map.1 hb
          exact g3 a ha⟩
    rw [hsnd]
    simp [g1a]

/-- C9 witness: a list of `100001` records. -/
theorem batched_writer_behaviour_witness :
    (List.replicate 100001 (default : Record)).length = 100001 ∧
    (pre_process cargsE = batchWriter maxCollectionSize (preProcessLoop cargsE) ∧
      (pre_process cargsE).flatten = preProcessLoop cargsE ∧
      (batchWriter maxCollectionSize
        (List.replicate 100001 (default : Record))).map List.length =
        [100000, 1]) :=
  ⟨List.length_replicate .., batched_writer_behaviour cargsE
    (List.replicate 100001 (default : Record)) (List.length_replicate ..)⟩

end PreProc
